import Mathlib

/-!
Verification development for the smart-store warehouse loader
(`src/analytics_project/etl_to_dw.py` and the upstream cleaner
`src/data_preparation/prepare_sales_data.py`).

The pandas DataFrames are embedded as Lean lists of structure rows.
A possibly-missing cell (pandas `NaN`) is an `Option`; Python's
`astype(str)` renders a missing cell as the literal string `"nan"`.
Numeric cells carry the value produced by `pd.to_numeric(errors="coerce")`:
`none` stands for a missing or non-numeric cell, `some q` for a parsed
number (modelled as a rational; float rounding is elided).
-/

namespace SmartStore

/-- Python `str()` view of a possibly-missing string cell:
`astype(str)` turns `NaN` into the literal string `"nan"`. -/
def pyStr : Option String → String
  | none => "nan"
  | some s => s

/-- Python `.strip()`: drop leading and trailing whitespace
(embedded at the character-list level so it evaluates by `decide`). -/
def pyStrip (s : String) : String :=
  ⟨((s.data.dropWhile Char.isWhitespace).reverse.dropWhile Char.isWhitespace).reverse⟩

/-- Python `.lower()` on the ASCII range, as used by the source. -/
def pyLower (s : String) : String :=
  ⟨s.data.map Char.toLower⟩

/-- Python `.replace(" ", "")` for the single-space pattern:
removes every space character. -/
def removeSpaces (s : String) : String :=
  ⟨s.data.filter (fun c => c ≠ ' ')⟩

/-- Truncation toward zero of a rational, the behaviour of numpy
`astype(int)` on a float column. -/
def pyInt (q : ℚ) : ℤ :=
  Int.tdiv q.num (q.den : ℤ)

/-- Embeds `_num(series)` (etl_to_dw.py lines 38-40):
`pd.to_numeric(errors="coerce").fillna(0)`. -/
def numRat (v : Option ℚ) : ℚ := v.getD 0

/-- Embeds `_num(series, as_int=True)`: coerce, fill missing with 0,
then `astype(int)`. -/
def numInt (v : Option ℚ) : ℤ := pyInt (numRat v)

/-- Embeds the mapping dict of `_yn_to_int` (etl_to_dw.py lines 27-35). -/
def ynMap (s : String) : Option ℕ :=
  if s = "yes" then some 1
  else if s = "no" then some 0
  else if s = "1" then some 1
  else if s = "0" then some 0
  else if s = "true" then some 1
  else if s = "false" then some 0
  else none

/-- Embeds `_yn_to_int`: `astype(str).str.strip().str.lower().map(...)
.fillna(0).astype(int)`. -/
def yn_to_int (v : Option String) : ℕ :=
  (ynMap (pyLower (pyStrip (pyStr v)))).getD 0

/-! ## Calendar dates

`pd.to_datetime(..., format="%Y-%m-%d", errors="coerce")` parses a
dash-separated year-month-day string into a calendar date, giving `NaT`
(`none`) on failure.  The pandas `Timestamp` range bounds are elided. -/

/-- A proleptic-Gregorian calendar date. -/
structure Date where
  year : ℕ
  month : ℕ
  day : ℕ
deriving Repr, DecidableEq

/-- Gregorian leap-year rule. -/
def isLeap (y : ℕ) : Bool :=
  (y % 4 == 0 && y % 100 != 0) || (y % 400 == 0)

/-- Number of days in a month of a given year. -/
def daysInMonth (y m : ℕ) : ℕ :=
  if m = 2 then (if isLeap y then 29 else 28)
  else if m = 4 ∨ m = 6 ∨ m = 9 ∨ m = 11 then 30
  else 31

/-- Validity of a calendar date (year limited to four digits, as the
`%Y` directive matches at most four). -/
def Date.valid (d : Date) : Bool :=
  1 ≤ d.year && d.year ≤ 9999 &&
  1 ≤ d.month && d.month ≤ 12 &&
  1 ≤ d.day && d.day ≤ daysInMonth d.year d.month

/-- Split a character list on the dash separator. -/
def splitOnDash : List Char → List (List Char)
  | [] => [[]]
  | c :: cs =>
    let r := splitOnDash cs
    if c = '-' then [] :: r
    else
      match r with
      | [] => [[c]]
      | h :: t => (c :: h) :: t

/-- Numeric value of a nonempty all-digit character group. -/
def digitsVal : List Char → Option ℕ
  | [] => none
  | l =>
    if l.all Char.isDigit then
      some (l.foldl (fun a c => a * 10 + (c.toNat - 48)) 0)
    else none

/-- Embeds `pd.to_datetime(s, format="%Y-%m-%d", errors="coerce")` on a
single cell: exactly three dash-separated numeric groups (year up to four
digits, month and day up to two) forming a valid calendar date. -/
def parseDate (s : String) : Option Date :=
  match splitOnDash s.data with
  | [ys, ms, ds] =>
    match digitsVal ys, digitsVal ms, digitsVal ds with
    | some y, some m, some d =>
      if ys.length ≤ 4 && ms.length ≤ 2 && ds.length ≤ 2 &&
          (Date.mk y m d).valid then
        some ⟨y, m, d⟩
      else none
    | _, _, _ => none
  | _ => none

/-- Left-pad a numeral with zeros to a given width. -/
def padZeros (n width : ℕ) : String :=
  ⟨List.replicate (width - (toString n).length) '0'⟩ ++ toString n

/-- Embeds `strftime("%Y-%m-%d")`: zero-padded ISO rendering. -/
def fmtDate (d : Date) : String :=
  padZeros d.year 4 ++ "-" ++ padZeros d.month 2 ++ "-" ++ padZeros d.day 2

/-- Number of leap years in `1..y`. -/
def leapsBefore (y : ℕ) : ℕ := y / 4 - y / 100 + y / 400

/-- Days in the months of year `y` strictly before month `m`. -/
def daysBeforeMonth (y m : ℕ) : ℕ :=
  (List.range (m - 1)).foldl (fun acc k => acc + daysInMonth y (k + 1)) 0

/-- Zero-based index of a date in the proleptic Gregorian calendar,
counting from 0001-01-01 (which falls on a Monday). -/
def dayIndex (d : Date) : ℕ :=
  365 * (d.year - 1) + leapsBefore (d.year - 1) +
    daysBeforeMonth d.year d.month + (d.day - 1)

/-- Embeds pandas `Series.dt.dayofweek`: Monday = 0 … Sunday = 6. -/
def dayofweek (d : Date) : ℕ := dayIndex d % 7

/-- Sanity anchor: 2024-03-09 is a Saturday (the spec's worked example). -/
theorem dayofweek_anchor : dayofweek ⟨2024, 3, 9⟩ = 5 := by decide

/-! ## Fact Builder (`normalize_sales`, etl_to_dw.py lines 78-103) -/

/-- A row of the cleaned sales input, after the rename of line 79:
one field per expected column.  String cells are `Option String`
(`none` = missing), numeric cells carry their `to_numeric` view. -/
structure RawSalesRow where
  transactionID : String
  saleDate : String
  customerID : Option String
  productID : Option String
  storeID : Option String
  campaignID : Option String
  saleAmount : Option ℚ
  quantity : Option ℚ
  paymentMethod : Option String
deriving Repr, DecidableEq

/-- A row of the sales fact table produced by `normalize_sales`. -/
structure FactRow where
  sale_id : String
  date : String
  customer_id : Option String
  product_id : Option String
  store_id : String
  campaign_id : Option String
  payment_method_id : String
  quantity : ℤ
  sales_amount : ℚ
deriving Repr, DecidableEq

/-- Embeds line 98: `astype(str).replace({"": "UNKNOWN-STORE"})`.
Only the exact empty string is replaced; a missing cell has already
been rendered `"nan"` by `astype(str)`. -/
def normStore (v : Option String) : String :=
  let s := pyStr v
  if s = "" then "UNKNOWN-STORE" else s

/-- Embeds lines 99-101: `astype(str).replace({"": "UNKNOWN"})`. -/
def normPayment (v : Option String) : String :=
  let s := pyStr v
  if s = "" then "UNKNOWN" else s

/-- Embeds line 102: `astype(str).replace({"": None, "nan": None})`. -/
def normCampaign (v : Option String) : Option String :=
  let s := pyStr v
  if s = "" ∨ s = "nan" then none else some s

/-- Embeds `normalize_sales` (lines 78-103): parse the sale date with the
fixed format, drop rows whose date fails to parse, re-render the date,
coerce `quantity` and `sales_amount`, and apply the store / payment /
campaign replacements.  (The `df.get` column-absent defaults of lines
98-100 do not arise: the cleaned input carries the full header.) -/
def normalize_sales (rows : List RawSalesRow) : List FactRow :=
  rows.filterMap fun r =>
    match parseDate r.saleDate with
    | none => none
    | some d =>
      some
        { sale_id := r.transactionID
          date := fmtDate d
          customer_id := r.customerID
          product_id := r.productID
          store_id := normStore r.storeID
          campaign_id := normCampaign r.campaignID
          payment_method_id := normPayment r.paymentMethod
          quantity := numInt r.quantity
          sales_amount := numRat r.saleAmount }

theorem normalize_sales_nil : normalize_sales [] = [] := rfl

/-- Auxiliary count identity: surviving rows plus dropped rows cover the
input exactly. -/
theorem normalize_sales_length_add (rows : List RawSalesRow) :
    (normalize_sales rows).length +
      rows.countP (fun r => (parseDate r.saleDate).isNone) = rows.length := by
  induction rows with
  | nil => rfl
  | cons r rs ih =>
    cases h : parseDate r.saleDate with
    | none =>
      simp [normalize_sales, List.filterMap_cons, h, List.countP_cons] at ih ⊢
      omega
    | some d =>
      simp [normalize_sales, List.filterMap_cons, h, List.countP_cons] at ih ⊢
      omega

/-- C3: the Fact Builder drops exactly the rows whose `SaleDate` fails to
parse against the fixed `%Y-%m-%d` format, and no others: the output row
count is the input row count minus the count of unparseable dates. -/
theorem normalize_sales_row_count (rows : List RawSalesRow) :
    (normalize_sales rows).length =
      rows.length - rows.countP (fun r => (parseDate r.saleDate).isNone) := by
  have h := normalize_sales_length_add rows
  omega

/-! ## Keep-first deduplication

Embeds pandas `drop_duplicates` / `drop_duplicates(subset=[k])`: keep the
first row for each key, preserving order. -/

/-- Keep-first dedup by key, carrying the set of keys already seen. -/
def dedupByAux {α κ : Type} [DecidableEq κ] (f : α → κ) :
    List α → List κ → List α
  | [], _ => []
  | x :: xs, seen =>
    if f x ∈ seen then dedupByAux f xs seen
    else x :: dedupByAux f xs (f x :: seen)

/-- Keep-first dedup of a list by a key function. -/
def dedupBy {α κ : Type} [DecidableEq κ] (f : α → κ) (l : List α) : List α :=
  dedupByAux f l []

/-- Keep-first dedup of a list of strings (`drop_duplicates` on a single
column). -/
def dedupStr (l : List String) : List String := dedupBy id l

theorem dedupByAux_subset {α κ : Type} [DecidableEq κ] (f : α → κ) :
    ∀ (l : List α) (seen : List κ) (x : α), x ∈ dedupByAux f l seen → x ∈ l := by
  intro l
  induction l with
  | nil => intro seen x h; simp [dedupByAux] at h
  | cons a as ih =>
    intro seen x h
    simp only [dedupByAux] at h
    split at h
    · exact List.mem_cons_of_mem _ (ih _ _ h)
    · rcases List.mem_cons.mp h with h' | h'
      · exact h' ▸ List.mem_cons_self _ _
      · exact List.mem_cons_of_mem _ (ih _ _ h')

theorem dedupByAux_keys_complete {α κ : Type} [DecidableEq κ] (f : α → κ) :
    ∀ (l : List α) (seen : List κ) (k : κ), k ∈ l.map f → k ∉ seen →
      k ∈ (dedupByAux f l seen).map f := by
  intro l
  induction l with
  | nil => intro seen k h _; simp at h
  | cons a as ih =>
    intro seen k h hns
    simp only [List.map_cons, List.mem_cons] at h
    simp only [dedupByAux]
    split
    · rcases h with h | h
      · exact absurd (h ▸ ‹f a ∈ seen›) hns
      · exact ih _ _ h hns
    · rcases h with h | h
      · simp [h]
      · by_cases hk : k = f a
        · simp [hk]
        · have : k ∈ (dedupByAux f as (f a :: seen)).map f :=
            ih _ _ h (by simp [hk, hns])
          simp [this]

theorem dedupByAux_keys_fresh {α κ : Type} [DecidableEq κ] (f : α → κ) :
    ∀ (l : List α) (seen : List κ) (k : κ),
      k ∈ (dedupByAux f l seen).map f → k ∉ seen := by
  intro l
  induction l with
  | nil => intro seen k h; simp [dedupByAux] at h
  | cons a as ih =>
    intro seen k h
    simp only [dedupByAux] at h
    split at h
    · exact ih _ _ h
    · simp only [List.map_cons, List.mem_cons] at h
      rcases h with h | h
      · exact h ▸ ‹f a ∉ seen›
      · intro hk
        exact ih _ _ h (List.mem_cons_of_mem _ hk)

theorem dedupByAux_keys_nodup {α κ : Type} [DecidableEq κ] (f : α → κ) :
    ∀ (l : List α) (seen : List κ), ((dedupByAux f l seen).map f).Nodup := by
  intro l
  induction l with
  | nil => intro seen; simp [dedupByAux]
  | cons a as ih =>
    intro seen
    simp only [dedupByAux]
    split
    · exact ih _
    · simp only [List.map_cons, List.nodup_cons]
      refine ⟨fun hmem => ?_, ih _⟩
      exact dedupByAux_keys_fresh f as (f a :: seen) (f a) hmem
        (List.mem_cons_self _ _)

/-! ## Dimension tables

Dimension DataFrames are embedded uniformly: a key column (already in its
`astype(str)` rendering) plus the remaining attribute cells rendered as
strings.  The `fill_cols` dict of constants / callables is embedded as a
function from the key to the attribute row. -/

/-- A dimension-table row: key column plus string-rendered attributes. -/
structure DimRow where
  key : String
  attrs : List String
deriving Repr, DecidableEq

/-- Embeds `build_dim_from_sales` (etl_to_dw.py lines 125-139): distinct
non-null key values of the fact column, keep-first order, with the
schema-specific default attributes. -/
def build_dim_from_sales (col : List (Option String)) (schema : String) :
    List DimRow :=
  let ids := dedupStr (col.filterMap id)
  if schema = "stores" then ids.map (fun k => ⟨k, ["", ""]⟩)
  else if schema = "campaigns" then ids.map (fun k => ⟨k, ["", "", ""]⟩)
  else if schema = "payment_methods" then ids.map (fun k => ⟨k, [k]⟩)
  else ids.map (fun k => ⟨k, []⟩)

/-- Embeds line 143: `set(dim_df[key].astype(str)) if not dim_df.empty
else set()` (as a membership list). -/
def dimHave (dim : List DimRow) : List String :=
  if dim = [] then [] else dim.map (·.key)

/-- Embeds lines 144-145: `sorted(list(need - have))` where `need` is the
set of distinct non-null fact key values. -/
def ensureMissing (col : List (Option String)) (dim : List DimRow) :
    List String :=
  List.insertionSort (· ≤ ·)
    ((dedupStr (col.filterMap id)).filter (fun k => decide (k ∉ dimHave dim)))

/-- Embeds `ensure_dim_covers_sales_keys` (etl_to_dw.py lines 142-151):
append one row per missing fact key, in sorted order, with the supplied
default attributes; return the dimension unchanged when nothing is
missing. -/
def ensure_dim_covers_sales_keys (col : List (Option String))
    (dim : List DimRow) (fill : String → List String) : List DimRow :=
  if ensureMissing col dim = [] then dim
  else dim ++ (ensureMissing col dim).map (fun k => ⟨k, fill k⟩)

/-- Every distinct non-null fact key ends up among the keys of the
enforced dimension (shared helper for the closure and idempotence
theorems). -/
theorem ensure_covers_key (col : List (Option String)) (dim : List DimRow)
    (fill : String → List String) (k : String)
    (hk : k ∈ dedupStr (col.filterMap id)) :
    k ∈ (ensure_dim_covers_sales_keys col dim fill).map (·.key) := by
  by_cases hhave : k ∈ dimHave dim
  · have hdim : k ∈ dim.map (·.key) := by
      unfold dimHave at hhave
      split at hhave
      · simp at hhave
      · exact hhave
    unfold ensure_dim_covers_sales_keys
    split
    · exact hdim
    · simpa using Or.inl hdim
  · have hmiss : k ∈ ensureMissing col dim := by
      unfold ensureMissing
      rw [List.mem_insertionSort]
      rw [List.mem_filter]
      exact ⟨hk, by simpa using hhave⟩
    unfold ensure_dim_covers_sales_keys
    split
    · exact absurd hmiss (by simp [‹ensureMissing col dim = []›])
    · have : k ∈ ((ensureMissing col dim).map
          (fun k => (⟨k, fill k⟩ : DimRow))).map (·.key) := by
        simpa [List.map_map, Function.comp] using hmiss
      simpa using Or.inr this

/-- C1: after applying the Referential Closure Enforcer to a dimension
against a fact-table key column, every distinct non-null value of the
fact column is present in the key column of the resulting dimension. -/
theorem ensure_dim_covers_all_fact_keys (col : List (Option String))
    (dim : List DimRow) (fill : String → List String) (v : String)
    (hv : some v ∈ col) :
    v ∈ (ensure_dim_covers_sales_keys col dim fill).map (·.key) := by
  apply ensure_covers_key
  have hff : v ∈ col.filterMap id := List.mem_filterMap.mpr ⟨some v, hv, rfl⟩
  have := dedupByAux_keys_complete (fun s : String => s) (col.filterMap id) [] v
  simpa [dedupStr, dedupBy, List.map_id] using this (by simpa using hff) (by simp)

/-- Closed witness for C1 at a concrete fact column and dimension. -/
theorem ensure_dim_covers_all_fact_keys_witness :
    some "B" ∈ [some "B", none, some "A"] ∧
      "B" ∈ (ensure_dim_covers_sales_keys [some "B", none, some "A"]
        [⟨"A", ["x"]⟩] (fun _ => [""])).map (·.key) :=
  ⟨by decide,
    ensure_dim_covers_all_fact_keys [some "B", none, some "A"]
      [⟨"A", ["x"]⟩] (fun _ => [""]) "B" (by decide)⟩

/-- C2: the Referential Closure Enforcer is idempotent — a second
application with the same fact table returns the dimension unchanged. -/
theorem ensure_dim_idempotent (col : List (Option String))
    (dim : List DimRow) (fill : String → List String) :
    ensure_dim_covers_sales_keys col
        (ensure_dim_covers_sales_keys col dim fill) fill =
      ensure_dim_covers_sales_keys col dim fill := by
  have hcover : ∀ k ∈ dedupStr (col.filterMap id),
      k ∈ (ensure_dim_covers_sales_keys col dim fill).map (·.key) :=
    fun k hk => ensure_covers_key col dim fill k hk
  set out := ensure_dim_covers_sales_keys col dim fill with hout
  have hfilter :
      (dedupStr (col.filterMap id)).filter
        (fun k => decide (k ∉ dimHave out)) = [] := by
    rw [List.filter_eq_nil_iff]
    intro k hk
    have hmem := hcover k hk
    have hne : out ≠ [] := by
      intro hnil
      rw [hnil] at hmem
      simp at hmem
    simp [dimHave, hne, hmem]
  have hmiss : ensureMissing col out = [] := by
    unfold ensureMissing
    rw [hfilter]
    rfl
  show ensure_dim_covers_sales_keys col out fill = out
  unfold ensure_dim_covers_sales_keys
  rw [hmiss]
  simp

/-- C10: the Referential Closure Enforcer is append-only — the output is
the input dimension followed by appended rows, each appended row carries a
fact key absent from the input dimension, and the appended keys are in
ascending sorted order. -/
theorem ensure_dim_append_only (col : List (Option String))
    (dim : List DimRow) (fill : String → List String) :
    ∃ added : List DimRow,
      ensure_dim_covers_sales_keys col dim fill = dim ++ added ∧
      (∀ a ∈ added, some a.key ∈ col ∧ a.key ∉ dim.map (·.key)) ∧
      List.Sorted (· ≤ ·) (added.map (·.key)) := by
  by_cases hmiss : ensureMissing col dim = []
  · refine ⟨[], ?_, by simp, by simp⟩
    simp [ensure_dim_covers_sales_keys, hmiss]
  · refine ⟨(ensureMissing col dim).map (fun k => ⟨k, fill k⟩), ?_, ?_, ?_⟩
    · simp [ensure_dim_covers_sales_keys, hmiss]
    · intro a ha
      rcases List.mem_map.mp ha with ⟨k, hk, rfl⟩
      have hk' : k ∈ (dedupStr (col.filterMap id)).filter
          (fun k => decide (k ∉ dimHave dim)) := by
        have := (List.mem_insertionSort (· ≤ ·)).mp hk
        exact this
      rw [List.mem_filter] at hk'
      obtain ⟨hkd, hknot⟩ := hk'
      have hkcol : k ∈ col.filterMap id :=
        dedupByAux_subset (fun s : String => s) _ [] k hkd
      have hksome : some k ∈ col := by
        rcases List.mem_filterMap.mp hkcol with ⟨o, ho, hid⟩
        cases o with
        | none => simp at hid
        | some s => cases hid; exact ho
      refine ⟨hksome, ?_⟩
      have hknh : k ∉ dimHave dim := by simpa using hknot
      intro hkm
      apply hknh
      unfold dimHave
      split
      · rename_i hnil
        rw [hnil] at hkm
        simp at hkm
      · exact hkm
    · have hmapkeys :
          ((ensureMissing col dim).map
            (fun k => (⟨k, fill k⟩ : DimRow))).map (·.key) =
            ensureMissing col dim := by
        simp [List.map_map, Function.comp_def]
      rw [hmapkeys]
      exact List.sorted_insertionSort (· ≤ ·) _


/-! ## Calendar dimension (`build_dates_from_sales`, etl_to_dw.py 106-122) -/

/-- A row of the `dates` dimension. -/
structure DateRow where
  date : String
  year : ℕ
  quarter : ℕ
  month : ℕ
  day : ℕ
  is_weekend : ℕ
deriving Repr, DecidableEq

/-- Column construction of lines 109-118: formatted date, calendar parts,
pandas `quarter = (month - 1) / 3 + 1`, and the weekend flag
`dayofweek.isin([5, 6]).astype(int)`. -/
def mkDateRow (d : Date) : DateRow :=
  { date := fmtDate d
    year := d.year
    quarter := (d.month - 1) / 3 + 1
    month := d.month
    day := d.day
    is_weekend := if dayofweek d = 5 ∨ dayofweek d = 6 then 1 else 0 }

/-- Ordering of calendar rows by their (ISO-rendered) date column, the
`sort_values("date")` comparison. -/
def dateRowLE (a b : DateRow) : Prop := a.date ≤ b.date

instance : DecidableRel dateRowLE :=
  fun a b => inferInstanceAs (Decidable (a.date ≤ b.date))

instance : IsTotal DateRow dateRowLE := ⟨fun a b => le_total a.date b.date⟩

instance : IsTrans DateRow dateRowLE := ⟨fun _ _ _ h₁ h₂ => le_trans h₁ h₂⟩

/-- Embeds `build_dates_from_sales` (lines 106-122): re-parse the fact
dates dropping failures, derive the calendar columns, drop duplicate
dates keeping the first, and sort ascending by the date column. -/
def build_dates_from_sales (facts : List FactRow) : List DateRow :=
  let s := facts.filterMap (fun r => parseDate r.date)
  let rows := s.map mkDateRow
  List.insertionSort dateRowLE (dedupBy (fun dr => dr.date) rows)

/-- The weekend flag of a constructed calendar row is 1 exactly on
Saturdays and Sundays. -/
theorem mkDateRow_is_weekend (d : Date) :
    (mkDateRow d).is_weekend = 1 ↔ (dayofweek d = 5 ∨ dayofweek d = 6) := by
  unfold mkDateRow
  split
  · simp [*]
  · simp [*]

/-- C4: the calendar dimension has no duplicate dates; it contains a row
for every valid date appearing in the fact table; it is sorted ascending
by date; and every row is derived from a date parsed out of the fact
table, with year/quarter/month/day taken from that date and
`is_weekend = 1` iff the date falls on a Saturday or Sunday
(`dayofweek` 5 or 6, Monday = 0). -/
theorem build_dates_from_sales_spec (facts : List FactRow) :
    ((build_dates_from_sales facts).map DateRow.date).Nodup ∧
    (∀ d : Date, (∃ r ∈ facts, parseDate r.date = some d) →
      fmtDate d ∈ (build_dates_from_sales facts).map DateRow.date) ∧
    List.Sorted (· ≤ ·) ((build_dates_from_sales facts).map DateRow.date) ∧
    (∀ row ∈ build_dates_from_sales facts, ∃ d : Date,
      (∃ r ∈ facts, parseDate r.date = some d) ∧
      row.date = fmtDate d ∧ row.year = d.year ∧
      row.quarter = (d.month - 1) / 3 + 1 ∧
      row.month = d.month ∧ row.day = d.day ∧
      (row.is_weekend = 1 ↔ (dayofweek d = 5 ∨ dayofweek d = 6))) := by
  have hperm :
      List.Perm
        (List.insertionSort dateRowLE
          (dedupBy (fun dr => dr.date)
            ((facts.filterMap (fun r => parseDate r.date)).map mkDateRow)))
        (dedupBy (fun dr => dr.date)
          ((facts.filterMap (fun r => parseDate r.date)).map mkDateRow)) :=
    List.perm_insertionSort _ _
  refine ⟨?_, ?_, ?_, ?_⟩
  · have hnodup := dedupByAux_keys_nodup (fun dr : DateRow => dr.date)
      ((facts.filterMap (fun r => parseDate r.date)).map mkDateRow) []
    have := (hperm.map DateRow.date).nodup_iff
    unfold build_dates_from_sales
    exact this.mpr hnodup
  · intro d hd
    rcases hd with ⟨r, hr, hpr⟩
    have hds : d ∈ facts.filterMap (fun r => parseDate r.date) :=
      List.mem_filterMap.mpr ⟨r, hr, hpr⟩
    have hrow : mkDateRow d ∈
        (facts.filterMap (fun r => parseDate r.date)).map mkDateRow :=
      List.mem_map_of_mem _ hds
    have hkey : fmtDate d ∈
        ((facts.filterMap (fun r => parseDate r.date)).map mkDateRow).map
          (fun dr => dr.date) := by
      have : (mkDateRow d).date = fmtDate d := rfl
      exact this ▸ List.mem_map_of_mem _ hrow
    have hmem := dedupByAux_keys_complete (fun dr : DateRow => dr.date)
      ((facts.filterMap (fun r => parseDate r.date)).map mkDateRow) []
      (fmtDate d) hkey (by simp)
    unfold build_dates_from_sales
    exact ((hperm.map (fun dr : DateRow => dr.date)).mem_iff).mpr hmem
  · have hsorted : List.Sorted dateRowLE
        (List.insertionSort dateRowLE
          (dedupBy (fun dr => dr.date)
            ((facts.filterMap (fun r => parseDate r.date)).map mkDateRow))) :=
      List.sorted_insertionSort _ _
    unfold build_dates_from_sales
    exact List.Pairwise.map _ (fun a b h => h) hsorted
  · intro row hrow
    unfold build_dates_from_sales at hrow
    have hdd : row ∈ dedupBy (fun dr => dr.date)
        ((facts.filterMap (fun r => parseDate r.date)).map mkDateRow) :=
      hperm.mem_iff.mp hrow
    have hrows : row ∈
        (facts.filterMap (fun r => parseDate r.date)).map mkDateRow :=
      dedupByAux_subset _ _ _ _ hdd
    rcases List.mem_map.mp hrows with ⟨d, hds, rfl⟩
    rcases List.mem_filterMap.mp hds with ⟨r, hr, hpr⟩
    exact ⟨d, ⟨r, hr, hpr⟩, rfl, rfl, rfl, rfl, rfl, mkDateRow_is_weekend d⟩

/-! ## Upstream payment canonicalization
(`prepare_sales_data.py` lines 47-72 and `coerce_types` line 98) -/

/-- Embeds the `PAYMENT_CANON` dict (prepare_sales_data.py lines 47-56). -/
def PAYMENT_CANON (k : String) : Option String :=
  if k = "visa" then some "Visa"
  else if k = "mastercard" then some "Mastercard"
  else if k = "amex" then some "Amex"
  else if k = "americanexpress" then some "Amex"
  else if k = "discover" then some "Discover"
  else if k = "cash" then some "Cash"
  else if k = "applepay" then some "ApplePay"
  else if k = "googlepay" then some "GooglePay"
  else none

/-- Embeds `normalize_payment` (prepare_sales_data.py lines 68-72):
missing or blank becomes `"Unknown"`, otherwise the stripped, lowercased,
space-free key is looked up in the canon dict with default `"Unknown"`. -/
def normalize_payment (pm : Option String) : String :=
  match pm with
  | none => "Unknown"
  | some s =>
    if pyStrip s = "" then "Unknown"
    else (PAYMENT_CANON (removeSpaces (pyLower (pyStrip s)))).getD "Unknown"

/-- Embeds `coerce_types` line 98 of prepare_sales_data.py:
`df["PaymentMethod"] = df["PaymentMethod"].apply(normalize_payment)`. -/
def coercePayment (r : RawSalesRow) : RawSalesRow :=
  { r with paymentMethod := some (normalize_payment r.paymentMethod) }

/-- Concrete sales-input fixture for counterexamples and witnesses:
a row with a valid Saturday sale date and configurable store, campaign,
payment, quantity and amount cells. -/
def rawRow (store campaign pm : Option String) (qty amt : Option ℚ) :
    RawSalesRow :=
  { transactionID := "T1"
    saleDate := "2024-03-09"
    customerID := some "C1"
    productID := some "P1"
    storeID := store
    campaignID := campaign
    saleAmount := amt
    quantity := qty
    paymentMethod := pm }

/-- The canon-dict lookup with default never yields the empty string. -/
theorem canon_getD_ne_empty (k : String) :
    (PAYMENT_CANON k).getD "Unknown" ≠ "" := by
  unfold PAYMENT_CANON
  split_ifs <;> decide

/-- The canonical payment token is never the empty string. -/
theorem normalize_payment_ne_empty (pm : Option String) :
    normalize_payment pm ≠ "" := by
  cases pm with
  | none => decide
  | some s =>
    simp only [normalize_payment]
    split_ifs
    · decide
    · exact canon_getD_ne_empty _

/-- The store column produced by the Fact Builder is never empty. -/
theorem normStore_ne_empty (v : Option String) : normStore v ≠ "" := by
  cases v with
  | none => decide
  | some s =>
    by_cases he : s = ""
    · subst he; decide
    · simp [normStore, pyStr, he]

/-- The payment column produced by the Fact Builder is never empty. -/
theorem normPayment_ne_empty (v : Option String) : normPayment v ≠ "" := by
  cases v with
  | none => decide
  | some s =>
    by_cases he : s = ""
    · subst he; decide
    · simp [normPayment, pyStr, he]

/-- The Fact Builder passes an already-canonical payment token through
unchanged (the empty-string replacement never fires on it). -/
theorem normPayment_canon (pm : Option String) :
    normPayment (some (normalize_payment pm)) = normalize_payment pm := by
  have hne := normalize_payment_ne_empty pm
  simp [normPayment, pyStr, hne]

/-- C6 counterexample: a surviving fact row can carry a negative
quantity, so `normalize_sales` does not coerce `quantity` to a
non-negative integer. -/
theorem quantity_negative_counterexample :
    ∃ f ∈ normalize_sales [rawRow none none none (some (-3)) none],
      f.quantity < 0 := by decide

/-- C6 amended: the Fact Builder coerces the quantity of every surviving
fact row to an integer — missing or non-numeric values become 0 — but a
negative numeric value passes through (no non-negativity is enforced). -/
theorem quantity_coercion_amended (rows : List RawSalesRow) (f : FactRow)
    (hf : f ∈ normalize_sales rows) :
    ∃ r ∈ rows, (parseDate r.saleDate).isSome ∧
      f.quantity = numInt r.quantity ∧
      (r.quantity = none → f.quantity = 0) := by
  unfold normalize_sales at hf
  rcases List.mem_filterMap.mp hf with ⟨r, hr, hfr⟩
  refine ⟨r, hr, ?_⟩
  cases h : parseDate r.saleDate with
  | none => rw [h] at hfr; simp at hfr
  | some d =>
    rw [h] at hfr
    simp only [Option.some.injEq] at hfr
    subst hfr
    refine ⟨by simp, rfl, fun hq => ?_⟩
    simp [numInt, numRat, hq, pyInt]

/-- Closed witness for the amended C6 theorem at a concrete row. -/
theorem quantity_coercion_amended_witness :
    ∃ r ∈ [rawRow none none none (some 5) none],
      (parseDate r.saleDate).isSome ∧
      (FactRow.mk "T1" "2024-03-09" (some "C1") (some "P1") "nan" none "nan"
        5 0).quantity = numInt r.quantity ∧
      (r.quantity = none →
        (FactRow.mk "T1" "2024-03-09" (some "C1") (some "P1") "nan" none
          "nan" 5 0).quantity = 0) :=
  quantity_coercion_amended [rawRow none none none (some 5) none]
    (FactRow.mk "T1" "2024-03-09" (some "C1") (some "P1") "nan" none "nan"
      5 0) (by decide)

/-- C7 counterexample: a row whose store and payment cells are missing
(null) survives with `"nan"` in both columns — the sentinels are not
applied to missing values, only to empty strings. -/
theorem missing_store_sentinel_counterexample :
    ∃ f ∈ normalize_sales [rawRow none none none none none],
      f.store_id ≠ "UNKNOWN-STORE" ∧ f.store_id = "nan" ∧
      f.payment_method_id ≠ "UNKNOWN" ∧ f.payment_method_id = "nan" := by
  decide

/-- C7 amended: in every surviving fact row an empty-string `store_id`
becomes `"UNKNOWN-STORE"` and an empty-string `payment_method_id` becomes
`"UNKNOWN"`; a missing (null) cell instead becomes the string `"nan"`;
any other value passes through; neither output column is ever empty. -/
theorem store_payment_normalization_amended (rows : List RawSalesRow)
    (f : FactRow) (hf : f ∈ normalize_sales rows) :
    ∃ r ∈ rows,
      f.store_id ≠ "" ∧ f.payment_method_id ≠ "" ∧
      (r.storeID = some "" → f.store_id = "UNKNOWN-STORE") ∧
      (r.storeID = none → f.store_id = "nan") ∧
      (∀ s, r.storeID = some s → s ≠ "" → f.store_id = s) ∧
      (r.paymentMethod = some "" → f.payment_method_id = "UNKNOWN") ∧
      (r.paymentMethod = none → f.payment_method_id = "nan") ∧
      (∀ s, r.paymentMethod = some s → s ≠ "" → f.payment_method_id = s) := by
  unfold normalize_sales at hf
  rcases List.mem_filterMap.mp hf with ⟨r, hr, hfr⟩
  refine ⟨r, hr, ?_⟩
  cases h : parseDate r.saleDate with
  | none => rw [h] at hfr; simp at hfr
  | some d =>
    rw [h] at hfr
    simp only [Option.some.injEq] at hfr
    subst hfr
    refine ⟨?_, ?_, ?_, ?_, ?_, ?_, ?_, ?_⟩
    · exact normStore_ne_empty r.storeID
    · exact normPayment_ne_empty r.paymentMethod
    · intro hs; simp only [hs]; decide
    · intro hs; simp only [hs]; decide
    · intro s hs he; simp only [hs]; simp [normStore, pyStr, he]
    · intro hs; simp only [hs]; decide
    · intro hs; simp only [hs]; decide
    · intro s hs he; simp only [hs]; simp [normPayment, pyStr, he]

/-- Closed witness for the amended C7 theorem at a concrete row with
empty-string store and payment cells. -/
theorem store_payment_normalization_amended_witness :
    ∃ r ∈ [rawRow (some "") none (some "") none none],
      (FactRow.mk "T1" "2024-03-09" (some "C1") (some "P1") "UNKNOWN-STORE"
        none "UNKNOWN" 0 0).store_id ≠ "" ∧
      (FactRow.mk "T1" "2024-03-09" (some "C1") (some "P1") "UNKNOWN-STORE"
        none "UNKNOWN" 0 0).payment_method_id ≠ "" ∧
      (r.storeID = some "" →
        (FactRow.mk "T1" "2024-03-09" (some "C1") (some "P1") "UNKNOWN-STORE"
          none "UNKNOWN" 0 0).store_id = "UNKNOWN-STORE") ∧
      (r.storeID = none →
        (FactRow.mk "T1" "2024-03-09" (some "C1") (some "P1") "UNKNOWN-STORE"
          none "UNKNOWN" 0 0).store_id = "nan") ∧
      (∀ s, r.storeID = some s → s ≠ "" →
        (FactRow.mk "T1" "2024-03-09" (some "C1") (some "P1") "UNKNOWN-STORE"
          none "UNKNOWN" 0 0).store_id = s) ∧
      (r.paymentMethod = some "" →
        (FactRow.mk "T1" "2024-03-09" (some "C1") (some "P1") "UNKNOWN-STORE"
          none "UNKNOWN" 0 0).payment_method_id = "UNKNOWN") ∧
      (r.paymentMethod = none →
        (FactRow.mk "T1" "2024-03-09" (some "C1") (some "P1") "UNKNOWN-STORE"
          none "UNKNOWN" 0 0).payment_method_id = "nan") ∧
      (∀ s, r.paymentMethod = some s → s ≠ "" →
        (FactRow.mk "T1" "2024-03-09" (some "C1") (some "P1") "UNKNOWN-STORE"
          none "UNKNOWN" 0 0).payment_method_id = s) :=
  store_payment_normalization_amended
    [rawRow (some "") none (some "") none none]
    (FactRow.mk "T1" "2024-03-09" (some "C1") (some "P1") "UNKNOWN-STORE"
      none "UNKNOWN" 0 0) (by decide)

/-- C8 counterexample: `normalize_sales` itself does not canonicalize the
payment column — an input `"VISA"` survives as `"VISA"`, while the
canonical token (per the upstream `normalize_payment`) is `"Visa"`. -/
theorem fact_builder_canonicalization_counterexample :
    ∃ f ∈ normalize_sales [rawRow none none (some "VISA") none none],
      f.payment_method_id = "VISA" ∧
      normalize_payment (some "VISA") = "Visa" ∧
      f.payment_method_id ≠ normalize_payment (some "VISA") := by decide

/-- C8 amended: payment canonicalization is performed upstream by
`normalize_payment` (applied by `coerce_types` in the data-preparation
stage); after that stage, every fact row produced by `normalize_sales`
carries exactly the canonical token of the raw `PaymentMethod` value. -/
theorem payment_canonicalization_upstream (rows : List RawSalesRow)
    (f : FactRow) (hf : f ∈ normalize_sales (rows.map coercePayment)) :
    ∃ r ∈ rows, f.payment_method_id = normalize_payment r.paymentMethod := by
  unfold normalize_sales at hf
  rw [List.filterMap_map] at hf
  rcases List.mem_filterMap.mp hf with ⟨r, hr, hfr⟩
  refine ⟨r, hr, ?_⟩
  simp only [Function.comp_apply, coercePayment] at hfr
  cases h : parseDate r.saleDate with
  | none => rw [h] at hfr; simp at hfr
  | some d =>
    rw [h] at hfr
    simp only [Option.some.injEq] at hfr
    subst hfr
    exact normPayment_canon r.paymentMethod

/-- Closed witness for the amended C8 theorem: input `"VISA"` comes out
as the canonical token `"Visa"`. -/
theorem payment_canonicalization_upstream_witness :
    ∃ r ∈ [rawRow none none (some "VISA") none none],
      (FactRow.mk "T1" "2024-03-09" (some "C1") (some "P1") "nan" none
        "Visa" 0 0).payment_method_id = normalize_payment r.paymentMethod :=
  payment_canonicalization_upstream
    [rawRow none none (some "VISA") none none]
    (FactRow.mk "T1" "2024-03-09" (some "C1") (some "P1") "nan" none
      "Visa" 0 0) (by decide)

/-! ## Full load (`load_dw`, etl_to_dw.py lines 191-258)

The customer and product dimension DataFrames are embedded in the uniform
`DimRow` shape: the key column in its `astype(str)` rendering plus the
remaining attribute cells rendered as strings (the rendering is lossless
for the row-count and key-set properties verified here). -/

/-- A row of the cleaned customers input (post-rename cells). -/
structure RawCustomerRow where
  customerID : Option String
  name : Option String
  region : Option String
  joinDate : Option String
  lastPurchaseDate : Option String
  emailOptIn : Option String
deriving Repr, DecidableEq

/-- A row of the cleaned products input (post-rename cells). -/
structure RawProductRow where
  productID : Option String
  productName : Option String
  category : Option String
  unitPrice : Option ℚ
  stockLevel : Option ℚ
  discontinued : Option String
deriving Repr, DecidableEq

/-- Embeds `normalize_customers` (etl_to_dw.py lines 44-56): rename,
convert `email_opt_in` with `_yn_to_int`, keep the six columns. -/
def normalize_customers (rows : List RawCustomerRow) : List DimRow :=
  rows.map fun r =>
    ⟨pyStr r.customerID,
      [pyStr r.name, pyStr r.region, pyStr r.joinDate,
        pyStr r.lastPurchaseDate, toString (yn_to_int r.emailOptIn)]⟩

/-- Embeds `normalize_products` (etl_to_dw.py lines 59-75): rename,
coerce `unit_price` and `stock_level` with `_num`, convert
`discontinued` with `_yn_to_int`. -/
def normalize_products (rows : List RawProductRow) : List DimRow :=
  rows.map fun r =>
    ⟨pyStr r.productID,
      [pyStr r.productName, pyStr r.category, toString (numRat r.unitPrice),
        toString (numInt r.stockLevel), toString (yn_to_int r.discontinued)]⟩

/-- The seven warehouse tables. -/
structure DWState where
  dates : List DateRow
  customers : List DimRow
  products : List DimRow
  stores : List DimRow
  campaigns : List DimRow
  payment_methods : List DimRow
  sales : List FactRow
deriving Repr, DecidableEq

/-- In-memory table construction of `load_dw` (lines 196-235): normalize
the three inputs, build the calendar and skeleton dimensions from the
fact table, then apply the Referential Closure Enforcer to all five
dimensions. -/
def computeTables (customersRaw : List RawCustomerRow)
    (productsRaw : List RawProductRow) (salesRaw : List RawSalesRow) :
    DWState :=
  let customers_df := normalize_customers customersRaw
  let products_df := normalize_products productsRaw
  let sales_df := normalize_sales salesRaw
  let dates_df := build_dates_from_sales sales_df
  let stores_df :=
    build_dim_from_sales (sales_df.map (fun f => some f.store_id)) "stores"
  let campaigns_df :=
    build_dim_from_sales (sales_df.map (fun f => f.campaign_id)) "campaigns"
  let methods_df :=
    build_dim_from_sales (sales_df.map (fun f => some f.payment_method_id))
      "payment_methods"
  let stores_df := ensure_dim_covers_sales_keys
    (sales_df.map (fun f => some f.store_id)) stores_df (fun _ => ["", ""])
  let methods_df := ensure_dim_covers_sales_keys
    (sales_df.map (fun f => some f.payment_method_id)) methods_df
    (fun k => [k])
  let campaigns_df := ensure_dim_covers_sales_keys
    (sales_df.map (fun f => f.campaign_id)) campaigns_df
    (fun _ => ["", "", ""])
  let customers_df := ensure_dim_covers_sales_keys
    (sales_df.map (fun f => f.customer_id)) customers_df
    (fun _ => ["", "", "", "", "0"])
  let products_df := ensure_dim_covers_sales_keys
    (sales_df.map (fun f => f.product_id)) products_df
    (fun _ => ["", "", "0", "0", "0"])
  ⟨dates_df, customers_df, products_df, stores_df, campaigns_df,
    methods_df, sales_df⟩

/-- Embeds the `DELETE FROM` loop of lines 240-249 (facts first): empties
every table of the persisted store. -/
def deleteAll (_prior : DWState) : DWState :=
  ⟨[], [], [], [], [], [], []⟩

/-- Embeds the seven `to_sql(..., if_exists="append")` calls of lines
251-257 (dimensions first, facts last): append the freshly computed rows
to the (just emptied) persisted tables. -/
def appendTables (st new : DWState) : DWState :=
  { st with
    dates := st.dates ++ new.dates
    customers := st.customers ++ new.customers
    products := st.products ++ new.products
    stores := st.stores ++ new.stores
    campaigns := st.campaigns ++ new.campaigns
    payment_methods := st.payment_methods ++ new.payment_methods
    sales := st.sales ++ new.sales }

/-- Embeds `load_dw` (lines 191-258) as a transition on the persisted
store: delete-all then append the tables computed from the inputs. -/
def load_dw (customersRaw : List RawCustomerRow)
    (productsRaw : List RawProductRow) (salesRaw : List RawSalesRow)
    (prior : DWState) : DWState :=
  appendTables (deleteAll prior)
    (computeTables customersRaw productsRaw salesRaw)

/-- Row counts of the seven warehouse tables, in the report order of
lines 260-268. -/
def rowCounts (st : DWState) : List ℕ :=
  [st.dates.length, st.customers.length, st.products.length,
    st.stores.length, st.campaigns.length, st.payment_methods.length,
    st.sales.length]

/-- C9: the full-refresh load is deterministic — running `load_dw` twice
on the same cleaned inputs leaves the same row count in each of the seven
warehouse tables after both runs (indeed, the identical persisted state,
whatever state the first run started from). -/
theorem load_dw_full_refresh_deterministic
    (customersRaw : List RawCustomerRow) (productsRaw : List RawProductRow)
    (salesRaw : List RawSalesRow) (prior : DWState) :
    rowCounts (load_dw customersRaw productsRaw salesRaw
        (load_dw customersRaw productsRaw salesRaw prior)) =
      rowCounts (load_dw customersRaw productsRaw salesRaw prior) := rfl

end SmartStore
